import Mathlib

/-!
Shallow embedding of the transit-tracker-api reconciliation engine and
schedule aggregator (gtfs.service.ts and schedule.service.ts).

Modelling conventions:
* JavaScript `Date` objects are modelled as `JsDate`: an allocation identifier
  plus a time in integer milliseconds.  `new Date` allocates a fresh identifier
  (an allocation counter is threaded through the functions that allocate), and
  JavaScript reference equality (`===`) between two `Date`s is equality of
  allocation identifiers, while `Date` ordering (`<`, `>`) compares times.
* JavaScript numbers are modelled as exact integers (milliseconds) or exact
  rationals where the source divides by 1000.
* Optional or possibly-`undefined` values are `Option`; JavaScript truthiness
  of a number is `≠ 0`, of a string is `≠ ""`, and `x ?? y` / `x || y` on
  optional values is `Option.orElse`.
* External effects (the timetable database, real-time fetches, the clock) are
  passed in as explicit parameters.
-/

structure JsDate where
  alloc : Nat
  time : Int
  deriving DecidableEq, Repr

/-- The whitespace characters relevant to `trim` here. -/
def charIsSpace (c : Char) : Bool :=
  c = ' ' || c = '\t' || c = '\n' || c = '\r'

/-- JavaScript `String.prototype.trim`, character-level. -/
def jsTrim (s : String) : String :=
  String.mk (((s.toList.dropWhile charIsSpace).reverse.dropWhile charIsSpace).reverse)

/-- Character-level starts-with test (first argument: the string, second: the
pattern). -/
def jsStartsWithChars : List Char → List Char → Bool
  | _, [] => true
  | [], _ :: _ => false
  | c :: cs, d :: ds => c = d && jsStartsWithChars cs ds

/-- JavaScript `String.prototype.startsWith`, character-level. -/
def jsStartsWith (s pat : String) : Bool :=
  jsStartsWithChars s.toList pat.toList

/-- JavaScript `str.slice(n)`: drop the first `n` characters. -/
def jsDrop (s : String) (n : Nat) : String :=
  String.mk (s.toList.drop n)

/-- JavaScript `str.replaceAll(p, "")` for a one-character pattern: remove
every occurrence of `p`. -/
def jsRemoveAllChar (p : Char) (s : String) : String :=
  String.mk (s.toList.filter fun c => decide (c ≠ p))

/-- Helper of `jsSplitChar`: `acc` is the current (reversed) segment. -/
def jsSplitCharAux (sep : Char) : List Char → List Char → List String
  | [], acc => [String.mk acc.reverse]
  | c :: cs, acc =>
    if c = sep then String.mk acc.reverse :: jsSplitCharAux sep cs []
    else jsSplitCharAux sep cs (c :: acc)

/-- JavaScript `String.prototype.split` with a one-character separator
(`""` splits to `[""]`, a trailing separator yields a final `""`). -/
def jsSplitChar (sep : Char) (s : String) : List String :=
  jsSplitCharAux sep s.toList []

instance {ε α : Type} [DecidableEq ε] [DecidableEq α] : DecidableEq (Except ε α) :=
  fun a b =>
    match a, b with
    | Except.ok x, Except.ok y => decidable_of_iff (x = y) (by simp)
    | Except.error x, Except.error y => decidable_of_iff (x = y) (by simp)
    | Except.ok _, Except.error _ => isFalse (fun h => by cases h)
    | Except.error _, Except.ok _ => isFalse (fun h => by cases h)

/-- GtfsRt.TripDescriptor.ScheduleRelationship enum. -/
inductive TripScheduleRelationship where
  | scheduled
  | added
  | unscheduled
  | canceled
  | replacement
  | duplicated
  deriving DecidableEq, Repr

/-- GtfsRt.TripUpdate.StopTimeUpdate.ScheduleRelationship enum. -/
inductive StopTimeScheduleRelationship where
  | scheduled
  | skipped
  | noData
  | unscheduled
  deriving DecidableEq, Repr

/-- GtfsRt.TripUpdate.StopTimeEvent: `{delay?, time?}` (delay in seconds,
time in epoch seconds). -/
structure StopTimeEvent where
  delay : Option Int
  time : Option Int
  deriving DecidableEq, Repr

/-- GtfsRt.TripUpdate.IStopTimeUpdate (the fields the service reads). -/
structure IStopTimeUpdate where
  stopSequence : Option Int
  stopId : Option String
  arrival : Option StopTimeEvent
  departure : Option StopTimeEvent
  scheduleRelationship : Option StopTimeScheduleRelationship
  deriving DecidableEq, Repr

/-- GtfsRt.ITripDescriptor (the fields the service reads). -/
structure TripDescriptor where
  tripId : Option String
  startDate : Option String
  scheduleRelationship : Option TripScheduleRelationship
  deriving DecidableEq, Repr

/-- GtfsRt.ITripUpdate.  A missing `stopTimeUpdate` array behaves exactly like
an empty one under `?.find`, so it is modelled as a plain list. -/
structure ITripUpdate where
  trip : TripDescriptor
  stopTimeUpdate : List IStopTimeUpdate
  deriving DecidableEq, Repr

/-- One row returned by getScheduleForRouteAtStop (interface TripStopRaw).
The `arrival_time`/`departure_time` columns are epoch milliseconds. -/
structure TripStopRaw where
  trip_id : String
  stop_id : String
  route_id : String
  route_name : String
  route_color : Option String
  stop_name : String
  stop_headsign : String
  stop_sequence : Int
  arrival_time : Int
  departure_time : Int
  start_date : String
  deriving DecidableEq, Repr

/-- interface TripStop from feed-provider.interface.ts. -/
structure TripStop where
  tripId : String
  stopId : String
  routeId : String
  routeName : String
  routeColor : Option String
  stopName : String
  headsign : String
  arrivalTime : JsDate
  departureTime : JsDate
  isRealtime : Bool
  deriving DecidableEq, Repr

/-- interface RouteAtStop from feed-provider.interface.ts. -/
structure RouteAtStop where
  routeId : String
  stopId : String
  deriving DecidableEq, Repr

/-- removeFromStart: return `str` with the first matching element of `substrs`
stripped from its start (then trimmed); `str` unchanged when none matches. -/
def removeFromStart (str : String) (substrs : List String) : String :=
  match substrs.find? (fun substr => jsStartsWith str substr) with
  | some substr => jsTrim (jsDrop str substr.length)
  | none => str

/-- removeRouteNameFromHeadsign: the `!routeShortName` / `!headsign`
truthiness tests on strings are emptiness tests. -/
def removeRouteNameFromHeadsign (routeShortName : String) (headsign : String) : String :=
  if routeShortName = "" then jsTrim headsign
  else if headsign = "" then ""
  else removeFromStart (jsTrim headsign)
    [routeShortName ++ " ", routeShortName ++ " - ", routeShortName ++ ": "]

/-- The `for (const key of ["arrival", "departure"])` delay-inference loop of
resolveTripTimes.  `delay = time - schedMs / 1000` is later only used as
`delay * 1000`, so the delay is carried here in exact milliseconds:
`1000 * time - schedMs`.  A later (departure) iteration overwrites an earlier
(arrival) one, exactly as in the source loop. -/
def inferredDelayMs (trip : TripStopRaw) (stu : IStopTimeUpdate) : Int :=
  let d1 : Int :=
    match stu.arrival.bind StopTimeEvent.time with
    | some t => 1000 * t - trip.arrival_time
    | none => 0
  match stu.departure.bind StopTimeEvent.time with
  | some t => 1000 * t - trip.departure_time
  | none => d1

/-- Lines 526-550 of gtfs.service.ts: the single `delay` (here in
milliseconds).  `if (definedDelay)` is a numeric truthiness test, so an
explicit delay of 0 falls through to time-based inference. -/
def resolvedDelayMs (trip : TripStopRaw) (stu? : Option IStopTimeUpdate) : Int :=
  match stu? with
  | none => 0
  | some stu =>
    if (stu.arrival.isSome || stu.departure.isSome)
        && (stu.arrival.isNone || stu.departure.isNone) then
      match stu.arrival.bind StopTimeEvent.delay <|> stu.departure.bind StopTimeEvent.delay with
      | some d => if d = 0 then inferredDelayMs trip stu else 1000 * d
      | none => inferredDelayMs trip stu
    else 0

/-- `stopTimeUpdate?.arrival?.time ? new Date(time * 1000) : new Date(schedArr + delay * 1000)`;
the condition is numeric truthiness, so `time = 0` takes the scheduled+delay branch. -/
def effArrivalMs (trip : TripStopRaw) (stu? : Option IStopTimeUpdate) : Int :=
  match (stu?.bind IStopTimeUpdate.arrival).bind StopTimeEvent.time with
  | some t =>
    if t = 0 then trip.arrival_time + resolvedDelayMs trip stu? else 1000 * t
  | none => trip.arrival_time + resolvedDelayMs trip stu?

/-- Departure analogue of `effArrivalMs`. -/
def effDepartureMs (trip : TripStopRaw) (stu? : Option IStopTimeUpdate) : Int :=
  match (stu?.bind IStopTimeUpdate.departure).bind StopTimeEvent.time with
  | some t =>
    if t = 0 then trip.departure_time + resolvedDelayMs trip stu? else 1000 * t
  | none => trip.departure_time + resolvedDelayMs trip stu?

/-- Arrival time after the `if (arrivalTime > departureTime)` clamp (which
mutates only the departure). -/
def resolvedArrivalMs (trip : TripStopRaw) (stu? : Option IStopTimeUpdate) : Int :=
  effArrivalMs trip stu?

/-- Departure time after the clamp: `departureTime.setTime(arrivalTime.getTime())`
when the arrival exceeds the departure. -/
def resolvedDepartureMs (trip : TripStopRaw) (stu? : Option IStopTimeUpdate) : Int :=
  if effDepartureMs trip stu? < effArrivalMs trip stu? then effArrivalMs trip stu?
  else effDepartureMs trip stu?

/-- maximumDeviationFromSchedule, computed on the post-clamp times. -/
def deviationMs (trip : TripStopRaw) (stu? : Option IStopTimeUpdate) : Int :=
  max (abs (resolvedDepartureMs trip stu? - trip.departure_time))
    (abs (resolvedArrivalMs trip stu? - trip.arrival_time))

/-- The record returned by resolveTripTimes. -/
structure ResolvedTripTimes where
  arrivalTime : JsDate
  departureTime : JsDate
  isRealtime : Bool
  deriving DecidableEq, Repr

/-- resolveTripTimes (gtfs.service.ts lines 519-585).  `ctr` is the Date
allocation counter; the call allocates, in order, scheduledArrivalTime,
scheduledDepartureTime, departureTime, arrivalTime.  When the deviation
exceeds 90 minutes (5400000 ms) the raw scheduled times are returned with
`isRealtime = false`; otherwise the adjusted times with
`isRealtime = !!stopTimeUpdate`. -/
def resolveTripTimes (ctr : Nat) (trip : TripStopRaw) (stu? : Option IStopTimeUpdate) :
    Nat × ResolvedTripTimes :=
  if 5400000 < deviationMs trip stu? then
    (ctr + 4, ⟨⟨ctr, trip.arrival_time⟩, ⟨ctr + 1, trip.departure_time⟩, false⟩)
  else
    (ctr + 4,
      ⟨⟨ctr + 3, resolvedArrivalMs trip stu?⟩, ⟨ctr + 2, resolvedDepartureMs trip stu?⟩,
        stu?.isSome⟩)

/-- `tripUpdates[trip_id + "_" + start_date] ?? tripUpdates[trip_id]`. -/
def matchTripUpdate (updMap : String → Option ITripUpdate) (trip : TripStopRaw) :
    Option ITripUpdate :=
  updMap (trip.trip_id ++ "_" ++ trip.start_date) <|> updMap trip.trip_id

/-- `tripUpdate?.stopTimeUpdate?.find(u => u.stopSequence === trip.stop_sequence || u.stopId === trip.stop_id)`. -/
def matchStopTimeUpdate (tu? : Option ITripUpdate) (trip : TripStopRaw) :
    Option IStopTimeUpdate :=
  tu?.bind fun tu =>
    tu.stopTimeUpdate.find? fun u =>
      decide (u.stopSequence = some trip.stop_sequence) || decide (u.stopId = some trip.stop_id)

/-- `Math.min(|arrival - now|, |departure - now|) < 14400000` (4 hours). -/
abbrev tripIsFeasiblyActive (now : Int) (r : ResolvedTripTimes) : Prop :=
  min (abs (r.arrivalTime.time - now)) (abs (r.departureTime.time - now)) < 14400000

/-- `tripUpdate?.trip?.startDate === trip.start_date` (strict equality against
a string, hence false whenever the update has no start date). -/
abbrev startDateMatches (tu? : Option ITripUpdate) (trip : TripStopRaw) : Prop :=
  (tu?.bind fun tu => tu.trip.startDate) = some trip.start_date

/-- `tripUpdate?.trip?.scheduleRelationship === CANCELED`. -/
abbrev isCanceled (tu? : Option ITripUpdate) : Prop :=
  (tu?.bind fun tu => tu.trip.scheduleRelationship) = some TripScheduleRelationship.canceled

/-- `stopTimeUpdate?.scheduleRelationship === SKIPPED`. -/
abbrev isSkippedStop (stu? : Option IStopTimeUpdate) : Prop :=
  (stu?.bind fun u => u.scheduleRelationship) = some StopTimeScheduleRelationship.skipped

/-- The duplicate test of lines 664-671: `tripId` is compared as a string
value, but `arrivalTime`/`departureTime` are `Date` objects compared with
`===`, i.e. by allocation identity. -/
abbrev isDuplicateTripStop (acc : List TripStop) (trip : TripStopRaw) (r : ResolvedTripTimes) :
    Prop :=
  ∃ ts ∈ acc, ts.tripId = trip.trip_id ∧ ts.arrivalTime.alloc = r.arrivalTime.alloc ∧
    ts.departureTime.alloc = r.departureTime.alloc

/-- The object pushed onto `tripStops`. -/
def mkTripStop (trip : TripStopRaw) (r : ResolvedTripTimes) : TripStop :=
  { tripId := trip.trip_id
    routeId := trip.route_id
    stopId := trip.stop_id
    routeName := trip.route_name
    routeColor := trip.route_color.map fun c => jsRemoveAllChar '#' c
    stopName := trip.stop_name
    headsign := removeRouteNameFromHeadsign trip.route_name trip.stop_headsign
    arrivalTime := r.arrivalTime
    departureTime := r.departureTime
    isRealtime := r.isRealtime }

/-- The body of the `trips.forEach` loop of getUpcomingTripsForRoutesAtStops
(lines 615-691), threading `(tripStops, allocation counter)`. -/
def processTrip (now : Int) (updMap : String → Option ITripUpdate)
    (st : List TripStop × Nat) (trip : TripStopRaw) : List TripStop × Nat :=
  let tu? := matchTripUpdate updMap trip
  let stu? := matchStopTimeUpdate tu? trip
  let next := resolveTripTimes st.2 trip stu?
  let r := next.2
  if r.departureTime.time < now then (st.1, next.1)
  else if (tripIsFeasiblyActive now r ∨ startDateMatches tu? trip)
      ∧ (isCanceled tu? ∨ isSkippedStop stu?) then (st.1, next.1)
  else if isDuplicateTripStop st.1 trip r then (st.1, next.1)
  else (st.1 ++ [mkTripStop trip r], next.1)

/-- getUpcomingTripsForRoutesAtStops (lines 587-695).  `schedule` stands for
getScheduleForRouteAtStop (a cached database query), and `updatesFor` for the
per-scheduleDate getTripUpdates call, whose failure is caught and replaced by
the empty lookup (`try/catch` of lines 603-613). -/
def getUpcomingTripsForRoutesAtStops
    (schedule : String → String → Int → List TripStopRaw)
    (updatesFor : Int → Except String (String → Option ITripUpdate))
    (now : Int) (routes : List RouteAtStop) : List TripStop :=
  (([-1, 0, 1] : List Int).foldl
    (fun st scheduleDate =>
      let trips := (routes.map fun r => schedule r.routeId r.stopId scheduleDate).flatten
      let updMap :=
        match updatesFor scheduleDate with
        | Except.ok m => m
        | Except.error _ => fun _ => none
      trips.foldl (processTrip now updMap) st)
    ([], 0)).1

/-- The parsed cache-control directives of one real-time endpoint response:
`maxAge` is the "max-age" directive when it is a number, `noCache` the
"no-cache" directive. -/
structure CacheControlDirectives where
  maxAge : Option Int
  noCache : Bool
  deriving DecidableEq, Repr

/-- GtfsRt.IFeedEntity (the only field the service reads). -/
structure IFeedEntity where
  tripUpdate : Option ITripUpdate
  deriving DecidableEq, Repr

/-- One response of the parallel fetches inside getTripUpdates:
its cache-control header (absent when the response carries none) and its
decoded feed entities. -/
structure RtResponse where
  cacheControl : Option CacheControlDirectives
  entities : List IFeedEntity
  deriving DecidableEq, Repr

/-- The `maxAge` accumulation of getTripUpdates (lines 460-478): starts at -1;
a numeric max-age directive contributes `max`, else a no-cache directive
contributes `max` with 0.  Each response updates the accumulator with a
commutative-monotone `max`, so completion order is irrelevant. -/
def tripUpdatesMaxAge (responses : List RtResponse) : Int :=
  responses.foldl
    (fun maxAge resp =>
      match resp.cacheControl with
      | some directives =>
        match directives.maxAge with
        | some a => max maxAge a
        | none => if directives.noCache then max maxAge 0 else maxAge
      | none => maxAge)
    (-1)

/-- `ttl: maxAge >= 0 ? maxAge * 1000 : 15_000` (line 491). -/
def tripUpdatesTtl (responses : List RtResponse) : Int :=
  if 0 ≤ tripUpdatesMaxAge responses then tripUpdatesMaxAge responses * 1000 else 15000

/-- The flattened entity list cached alongside the ttl (line 490). -/
def allFeedEntities (responses : List RtResponse) : List IFeedEntity :=
  (responses.map RtResponse.entities).flatten

/-- The lookup key for a filtered trip update:
`trip.startDate ? tripId + "_" + startDate : tripId` (string truthiness). -/
def tripUpdateKey (tu : ITripUpdate) (tripId : String) : String :=
  match tu.trip.startDate with
  | some sd => if sd = "" then tripId else tripId ++ "_" ++ sd
  | none => tripId

/-- The filtering loop of getTripUpdates (lines 500-514), building the
`tripId -> update` lookup object; a later entity with the same key overwrites
an earlier one. -/
def buildFilteredTripUpdates (entities : List IFeedEntity) (tripIds : List String) :
    String → Option ITripUpdate :=
  entities.foldl
    (fun m entity =>
      match entity.tripUpdate with
      | none => m
      | some tu =>
        match tu.trip.tripId with
        | some tripId =>
          if tripId ≠ "" ∧ tripId ∈ tripIds then
            fun k => if k = tripUpdateKey tu tripId then some tu else m k
          else m
        | none => m)
    (fun _ => none)

/-- getTripUpdates (lines 443-517).  The configuration value only selects
which URLs are fetched, so it is abstracted to its presence; `responses`
stands for the decoded fetch results.  `if (!this.config.rtTripUpdates)
return {}` yields the empty lookup when no real-time source is configured. -/
def getTripUpdates (rtTripUpdates : Option Unit) (responses : List RtResponse)
    (tripIds : List String) : String → Option ITripUpdate :=
  match rtTripUpdates with
  | none => fun _ => none
  | some _ => buildFilteredTripUpdates (allFeedEntities responses) tripIds

/-- interface RouteAtStopWithOffset from schedule.service.ts. -/
structure RouteAtStopWithOffset where
  routeId : String
  stopId : String
  offset : Int
  deriving DecidableEq, Repr

/-- interface ScheduleTrip.  In the source the times are epoch seconds with
millisecond resolution (`new Date(..).getTime() / 1000 + offset`, an exact
rational); they are represented here scaled by 1000 — i.e. in exact
milliseconds — so `x / 1000 + offset` becomes `x + 1000 * offset`, an order-
and equality-preserving integer encoding. -/
structure ScheduleTrip where
  tripId : String
  routeId : String
  routeName : String
  routeColor : Option String
  stopId : String
  stopName : String
  headsign : String
  arrivalTime : Int
  departureTime : Int
  isRealtime : Bool
  deriving DecidableEq, Repr

/-- interface ScheduleUpdate. -/
structure ScheduleUpdate where
  trips : List ScheduleTrip
  deriving DecidableEq, Repr

/-- The listMode option. -/
inductive ListMode where
  | sequential
  | nextPerRoute
  deriving DecidableEq, Repr

/-- The `.map` step of getUpcomingTrips (lines 55-67):
`routes.find(r => r.routeId === trip.routeId && r.stopId === trip.stopId).offset`
throws when no route matches (reading `.offset` of undefined), modelled as
`none`; the `offset ?? 0` fallback is the identity here since a parsed offset
is always a number. -/
def applyOffset (routes : List RouteAtStopWithOffset) (trip : TripStop) :
    Option ScheduleTrip :=
  (routes.find? fun r => decide (r.routeId = trip.routeId) && decide (r.stopId = trip.stopId)).map
    fun r =>
      { tripId := trip.tripId
        routeId := trip.routeId
        routeName := trip.routeName
        routeColor := trip.routeColor
        stopId := trip.stopId
        stopName := trip.stopName
        headsign := trip.headsign
        arrivalTime := trip.arrivalTime.time + 1000 * r.offset
        departureTime := trip.departureTime.time + 1000 * r.offset
        isRealtime := trip.isRealtime }

/-- All trips mapped through `applyOffset`; `none` when any trip's pair is
missing from `routes` (the thrown TypeError). -/
def applyOffsets (routes : List RouteAtStopWithOffset) (trips : List TripStop) :
    Option (List ScheduleTrip) :=
  trips.mapM (applyOffset routes)

/-- `const sortKey = sortByDeparture ? "departureTime" : "arrivalTime"`. -/
def sortKeyVal (sortByDeparture : Bool) (t : ScheduleTrip) : Int :=
  if sortByDeparture then t.departureTime else t.arrivalTime

/-- The ordering used by `.sort((a, b) => a[sortKey] - b[sortKey])`. -/
abbrev keyLe (sortByDeparture : Bool) (a b : ScheduleTrip) : Prop :=
  sortKeyVal sortByDeparture a ≤ sortKeyVal sortByDeparture b

instance (sbd : Bool) : IsTotal ScheduleTrip (keyLe sbd) :=
  ⟨fun a b => le_total (sortKeyVal sbd a) (sortKeyVal sbd b)⟩

instance (sbd : Bool) : IsTrans ScheduleTrip (keyLe sbd) :=
  ⟨fun _ _ _ h1 h2 => le_trans h1 h2⟩

/-- `.filter(trip => trip[sortKey] > Date.now() / 1000)`; `now` is the single
idealized clock reading, in the same scaled-by-1000 (millisecond) encoding. -/
def futureTrips (sortByDeparture : Bool) (now : Int) (trips : List ScheduleTrip) :
    List ScheduleTrip :=
  trips.filter fun t => decide (now < sortKeyVal sortByDeparture t)

/-- `.sort((a, b) => a[sortKey] - b[sortKey])`: a stable sort by the sort key
(Array.prototype.sort is stable), modelled with the stable insertion sort. -/
def sortTrips (sortByDeparture : Bool) (trips : List ScheduleTrip) : List ScheduleTrip :=
  List.insertionSort (keyLe sortByDeparture) trips

/-- `const pairKey = trip => routeId + "-" + stopId`. -/
def pairKey (t : ScheduleTrip) : String :=
  t.routeId ++ "-" ++ t.stopId

/-- The nextPerRoute filter (lines 71-85): the source primes a Set with every
pair key of the list and deletes a key the first time the filter sees it, so
it keeps exactly the first trip of each pair key; here the keys already seen
are carried explicitly. -/
def keepFirstByKey : List String → List ScheduleTrip → List ScheduleTrip
  | _, [] => []
  | seen, t :: ts =>
    if pairKey t ∈ seen then keepFirstByKey seen ts
    else t :: keepFirstByKey (pairKey t :: seen) ts

/-- `if (listMode === "nextPerRoute") { ... }` filter over the sorted list. -/
def nextPerRouteFilter (trips : List ScheduleTrip) : List ScheduleTrip :=
  keepFirstByKey [] trips

/-- The pipeline of getUpcomingTrips after the offset map:
future-filter, sort, optional nextPerRoute collapse, `slice(0, limit)`. -/
def aggregateTrips (sortByDeparture : Bool) (listMode : Option ListMode) (limit : Nat)
    (now : Int) (mapped : List ScheduleTrip) : List ScheduleTrip :=
  (if listMode = some ListMode.nextPerRoute then
      nextPerRouteFilter (sortTrips sortByDeparture (futureTrips sortByDeparture now mapped))
    else sortTrips sortByDeparture (futureTrips sortByDeparture now mapped)).take limit

/-- getUpcomingTrips (schedule.service.ts lines 46-92); `upcomingTrips` is the
provider result. -/
def getUpcomingTrips (upcomingTrips : List TripStop) (routes : List RouteAtStopWithOffset)
    (limit : Nat) (sortByDeparture : Bool) (listMode : Option ListMode) (now : Int) :
    Option ScheduleUpdate :=
  (applyOffsets routes upcomingTrips).map fun mapped =>
    ⟨aggregateTrips sortByDeparture listMode limit now mapped⟩

/-- Decimal digit value for jsParseInt. -/
def digitVal (c : Char) : Option Nat :=
  if c.isDigit then some (c.toNat - 48) else none

/-- Hexadecimal digit value for jsParseInt. -/
def hexDigitVal (c : Char) : Option Nat :=
  if c.isDigit then some (c.toNat - 48)
  else if 97 ≤ c.toNat ∧ c.toNat ≤ 102 then some (c.toNat - 87)
  else if 65 ≤ c.toNat ∧ c.toNat ≤ 70 then some (c.toNat - 55)
  else none

/-- Longest run of valid digits from the front; `none` (NaN) when the first
character is not a digit. -/
def parseDigits (digVal : Char → Option Nat) (base : Nat) :
    List Char → Option Nat → Option Nat
  | [], acc => acc
  | c :: cs, acc =>
    match digVal c with
    | some d => parseDigits digVal base cs (some (acc.getD 0 * base + d))
    | none => acc

/-- Unsigned part of jsParseInt, with the 0x/0X hexadecimal auto-detection. -/
def jsParseIntMag : List Char → Option Nat
  | '0' :: 'x' :: rest => parseDigits hexDigitVal 16 rest none
  | '0' :: 'X' :: rest => parseDigits hexDigitVal 16 rest none
  | cs => parseDigits digitVal 10 cs none

/-- JavaScript `parseInt(s)`: trim, optional sign, then the longest leading
digit run (with 0x hex detection); `none` models NaN. -/
def jsParseInt (s : String) : Option Int :=
  match (jsTrim s).toList with
  | '-' :: rest => (jsParseIntMag rest).map fun n => -(n : Int)
  | '+' :: rest => (jsParseIntMag rest).map fun n => (n : Int)
  | rest => (jsParseIntMag rest).map fun n => (n : Int)

/-- The pair object built before validation: destructuring
`[routeId, stopId, offset]` leaves missing components undefined and ignores
extras; `offset: parseInt(offset ?? "0")` with `none` for NaN. -/
structure RawRouteStopPair where
  routeId : Option String
  stopId : Option String
  offset : Option Int
  deriving DecidableEq, Repr

/-- `pair.split(",").map(part => part.trim())` destructured. -/
def buildRouteStopPair (pairStr : String) : RawRouteStopPair :=
  { routeId := ((jsSplitChar ',' pairStr).map jsTrim)[0]?
    stopId := ((jsSplitChar ',' pairStr).map jsTrim)[1]?
    offset := jsParseInt ((((jsSplitChar ',' pairStr).map jsTrim)[2]?).getD "0") }

/-- `routeStopPairsRaw.split(";")` mapped through `buildRouteStopPair`. -/
def buildRouteStopPairs (raw : String) : List RawRouteStopPair :=
  (jsSplitChar ';' raw).map buildRouteStopPair

/-- JavaScript falsiness of a possibly-undefined string. -/
def falsyStr : Option String → Bool
  | none => true
  | some s => decide (s = "")

/-- parseRouteStopPairs (schedule.service.ts lines 103-126): the validation
loop throws a BadRequestException at the first offending pair — the
route/stop check before the offset check within each pair. -/
def parseRouteStopPairs (raw : String) : Except String (List RawRouteStopPair) :=
  match (buildRouteStopPairs raw).find?
      (fun p => falsyStr p.routeId || falsyStr p.stopId || p.offset.isNone) with
  | some p =>
    if falsyStr p.routeId || falsyStr p.stopId then
      Except.error "Invalid route-stop pair; must be in the format routeId,stopId[,offset]"
    else Except.error "Invalid offset; must be a number"
  | none => Except.ok (buildRouteStopPairs raw)

/-- The freshness hint one response contributes to the `maxAge` accumulator:
its numeric max-age when present, else 0 when it carries no-cache, else
nothing.  Used to characterize `tripUpdatesMaxAge`. -/
def freshnessHint (resp : RtResponse) : Option Int :=
  match resp.cacheControl with
  | some directives =>
    match directives.maxAge with
    | some a => some a
    | none => if directives.noCache then some 0 else none
  | none => none

/-- The `currentSchedule` variable of subscribeToSchedule: starts `null`, and
is `undefined` after an errored pass (the `let trips` stays unassigned). -/
inductive CurrentSchedule where
  | null
  | undef
  | snap (s : ScheduleUpdate)
  deriving DecidableEq, Repr

/-- `JSON.stringify` on the compared values: `undefined` stringifies to
undefined (`none`), `null` to "null", and a snapshot to a string produced by
the serializer `enc` (external library code, passed as a parameter). -/
def stringifyCurrent (enc : ScheduleUpdate → String) : CurrentSchedule → Option String
  | CurrentSchedule.null => some "null"
  | CurrentSchedule.undef => none
  | CurrentSchedule.snap s => some (enc s)

/-- What one pass pushes at the observer. -/
inductive SubscriptionEvent where
  | errorSig (msg : String)
  | nextSig (v : CurrentSchedule)
  deriving DecidableEq, Repr

/-- One run of `updateSchedule` inside subscribeToSchedule (lines 146-161):
`fetched` is the outcome of the aggregation pass.  On error the catch block
calls `observer.error(e)` but does not return, so the change comparison and
a possible `observer.next` still run with `trips` left undefined. -/
def updateSchedule (enc : ScheduleUpdate → String) (currentSchedule : CurrentSchedule)
    (fetched : Except String ScheduleUpdate) : CurrentSchedule × List SubscriptionEvent :=
  match fetched with
  | Except.ok t =>
    if currentSchedule = CurrentSchedule.null ∨
        stringifyCurrent enc currentSchedule ≠ stringifyCurrent enc (CurrentSchedule.snap t) then
      (CurrentSchedule.snap t, [SubscriptionEvent.nextSig (CurrentSchedule.snap t)])
    else (currentSchedule, [])
  | Except.error e =>
    if currentSchedule = CurrentSchedule.null ∨
        stringifyCurrent enc currentSchedule ≠ stringifyCurrent enc CurrentSchedule.undef then
      (CurrentSchedule.undef,
        [SubscriptionEvent.errorSig e, SubscriptionEvent.nextSig CurrentSchedule.undef])
    else (currentSchedule, [SubscriptionEvent.errorSig e])

/-- A schedule row with the scheduled arrival two hours after the scheduled
departure (the import pipeline does not guarantee the ordering). -/
def misorderedTrip : TripStopRaw :=
  ⟨"t1", "s1", "r1", "R1", none, "Stop One", "H", 1, 7200000, 0, "20240101"⟩

/-- A well-ordered schedule row. -/
def orderedTrip : TripStopRaw :=
  ⟨"t1", "s1", "r1", "R1", none, "Stop One", "H", 1, 0, 60000, "20240101"⟩

/-- A matched stop update carrying neither arrival nor departure data. -/
def emptyStopUpdate : IStopTimeUpdate :=
  ⟨some 1, none, none, none, none⟩

/-- A schedule row used by the delay-resolution instances. -/
def delayTrip : TripStopRaw :=
  ⟨"t6", "s6", "r6", "R6", none, "Stop Six", "H", 1, 100000, 200000, "20240101"⟩

/-- A stop update with an explicit delay of 0 and an absolute arrival time
60 seconds after the scheduled arrival, on the arrival side only. -/
def zeroDelayStopUpdate : IStopTimeUpdate :=
  ⟨some 1, none, some ⟨some 0, some 160⟩, none, none⟩

/-- A stop update with an explicit non-zero delay on the arrival side only. -/
def plainDelayStopUpdate : IStopTimeUpdate :=
  ⟨some 1, none, some ⟨some 30, none⟩, none, none⟩

/-- A schedule row returned for the duplicated query below. -/
def dupTrip : TripStopRaw :=
  ⟨"t1", "s", "r", "R", none, "Stop", "H", 1, 1000000, 2000000, "20240101"⟩

/-- A schedule returning one row for route r at stop s on day offset 0. -/
def dupSchedule : String → String → Int → List TripStopRaw :=
  fun routeId stopId d => if routeId = "r" ∧ stopId = "s" ∧ d = 0 then [dupTrip] else []

/-- The same route-stop query listed twice. -/
def dupRoutes : List RouteAtStop :=
  [⟨"r", "s"⟩, ⟨"r", "s"⟩]

/-- A far-future schedule row (about 115 days away in milliseconds). -/
def farTrip : TripStopRaw :=
  ⟨"t1", "s", "r", "R", none, "Stop", "H", 1, 10000000000, 10000000500, "20240101"⟩

/-- A CANCELED trip update carrying an explicit start date. -/
def datedCancelUpdate : ITripUpdate :=
  ⟨⟨some "t1", some "20240101", some TripScheduleRelationship.canceled⟩, []⟩

/-- A lookup holding the dated cancellation under its combined key. -/
def datedCancelMap : String → Option ITripUpdate :=
  fun k => if k = "t1_20240101" then some datedCancelUpdate else none

/-- Provider output used by the aggregation instances. -/
def aggTrip (id : String) (arr dep : Int) (al : Nat) : TripStop :=
  ⟨id, "s", "r", "R", none, "Stop", "H", ⟨al, arr⟩, ⟨al + 1, dep⟩, false⟩

/-- The single route-stop query of the aggregation instances. -/
def aggRoutes : List RouteAtStopWithOffset :=
  [⟨"r", "s", 0⟩]

/-- Two provider trips for the same pair, the later one listed first. -/
def aggTrips : List TripStop :=
  [aggTrip "a" 3000000 3000000 0, aggTrip "b" 2000000 2000000 2]

/-- The snapshot the aggregation instances produce under nextPerRoute. -/
def aggResult : ScheduleUpdate :=
  ⟨[⟨"b", "r", "R", none, "s", "Stop", "H", 2000000, 2000000, false⟩]⟩

theorem resolvedTimes_le (trip : TripStopRaw) (stu? : Option IStopTimeUpdate) :
    resolvedArrivalMs trip stu? ≤ resolvedDepartureMs trip stu? := by
  unfold resolvedDepartureMs resolvedArrivalMs
  split
  · exact le_refl _
  · omega

/-- C1: the claim asserts `arrivalTime ≤ departureTime` for every result of
resolveTripTimes even when the scheduled pair is mis-ordered; the >90-minute
fallback branch returns the raw scheduled times, so a mis-ordered scheduled
pair comes back as-is: on `misorderedTrip` (scheduled arrival two hours after
scheduled departure, no stop update) the result has
arrivalTime > departureTime. -/
theorem resolveTripTimes_misordered_fallback_cex :
    (resolveTripTimes 0 misorderedTrip none).2.departureTime.time <
      (resolveTripTimes 0 misorderedTrip none).2.arrivalTime.time := by decide

/-- C1 (amended): resolveTripTimes returns `arrivalTime ≤ departureTime`
whenever the occurrence's scheduled arrival is at most its scheduled
departure; in the deviation ≤ 90 min branch the clamp makes this hold
unconditionally, and the >90-minute fallback returns the scheduled pair
itself. -/
theorem resolveTripTimes_arrival_le_departure (ctr : Nat) (trip : TripStopRaw)
    (stu? : Option IStopTimeUpdate) (h : trip.arrival_time ≤ trip.departure_time) :
    (resolveTripTimes ctr trip stu?).2.arrivalTime.time ≤
      (resolveTripTimes ctr trip stu?).2.departureTime.time := by
  unfold resolveTripTimes
  split
  · simpa using h
  · simpa using resolvedTimes_le trip stu?

theorem resolveTripTimes_arrival_le_departure_witness :
    orderedTrip.arrival_time ≤ orderedTrip.departure_time ∧
      (resolveTripTimes 0 orderedTrip none).2.arrivalTime.time ≤
        (resolveTripTimes 0 orderedTrip none).2.departureTime.time :=
  ⟨by decide, resolveTripTimes_arrival_le_departure 0 orderedTrip none (by decide)⟩

/-- C3: when the deviation (computed on the clamped effective times) exceeds
90 minutes, resolveTripTimes returns exactly the scheduled arrival and
departure with `isRealtime = false`; otherwise it returns the adjusted
(clamped) times with `isRealtime` true exactly when a stop update was
matched — even when the adjustment changes nothing. -/
theorem resolveTripTimes_confidence_filter (ctr : Nat) (trip : TripStopRaw)
    (stu? : Option IStopTimeUpdate) :
    (5400000 < deviationMs trip stu? →
      (resolveTripTimes ctr trip stu?).2.arrivalTime.time = trip.arrival_time ∧
      (resolveTripTimes ctr trip stu?).2.departureTime.time = trip.departure_time ∧
      (resolveTripTimes ctr trip stu?).2.isRealtime = false) ∧
    (deviationMs trip stu? ≤ 5400000 →
      (resolveTripTimes ctr trip stu?).2.arrivalTime.time = resolvedArrivalMs trip stu? ∧
      (resolveTripTimes ctr trip stu?).2.departureTime.time = resolvedDepartureMs trip stu? ∧
      (resolveTripTimes ctr trip stu?).2.isRealtime = stu?.isSome) := by
  constructor
  · intro hgt
    unfold resolveTripTimes
    rw [if_pos hgt]
    exact ⟨rfl, rfl, rfl⟩
  · intro hle
    unfold resolveTripTimes
    rw [if_neg (not_lt.mpr hle)]
    exact ⟨rfl, rfl, rfl⟩

theorem resolveTripTimes_confidence_filter_witness :
    deviationMs orderedTrip (some emptyStopUpdate) ≤ 5400000 ∧
      (resolveTripTimes 0 orderedTrip (some emptyStopUpdate)).2.isRealtime = true :=
  ⟨by decide,
    ((resolveTripTimes_confidence_filter 0 orderedTrip (some emptyStopUpdate)).2
      (by decide)).2.2⟩

/-- C6: the claim asserts the explicit delay field is preferred whenever
present; with `zeroDelayStopUpdate` (explicit delay 0 and an absolute arrival
time 60 s past schedule, arrival side only) the claim predicts delay 0 and an
effective departure equal to the scheduled 200000 ms, but the code treats the
zero delay as falsy, infers a 60 s delay from the arrival time and returns a
departure of 260000 ms. -/
theorem resolveTripTimes_zero_delay_cex :
    resolvedDelayMs delayTrip (some zeroDelayStopUpdate) = 60000 ∧
      (resolveTripTimes 0 delayTrip (some zeroDelayStopUpdate)).2.departureTime.time = 260000 ∧
      delayTrip.departure_time = 200000 := by decide

/-- C6 (amended): for a matched stop update specifying data on exactly one of
arrival/departure, the explicit delay field is preferred only when it is
non-zero (an explicit delay of 0 is falsy and falls through to inference);
otherwise the delay is the absolute update time minus the scheduled time of
whichever side carries a time; the effective departure is the update's
non-zero absolute departure time when given, else scheduledDeparture + delay,
and symmetrically for arrival; when the update specifies both sides or
neither, the delay is 0.  (Delays are carried in exact milliseconds.) -/
theorem resolveTripTimes_delay_resolution (trip : TripStopRaw) (stu : IStopTimeUpdate) :
    (∀ ev : StopTimeEvent, ∀ d : Int,
      stu.arrival = some ev → stu.departure = none → ev.delay = some d → d ≠ 0 →
        resolvedDelayMs trip (some stu) = 1000 * d) ∧
    (∀ ev : StopTimeEvent, ∀ d : Int,
      stu.departure = some ev → stu.arrival = none → ev.delay = some d → d ≠ 0 →
        resolvedDelayMs trip (some stu) = 1000 * d) ∧
    (∀ ev : StopTimeEvent, ∀ t : Int,
      stu.arrival = some ev → stu.departure = none →
      (ev.delay = none ∨ ev.delay = some 0) → ev.time = some t →
        resolvedDelayMs trip (some stu) = 1000 * t - trip.arrival_time) ∧
    (∀ ev : StopTimeEvent, ∀ t : Int,
      stu.departure = some ev → stu.arrival = none →
      (ev.delay = none ∨ ev.delay = some 0) → ev.time = some t →
        resolvedDelayMs trip (some stu) = 1000 * t - trip.departure_time) ∧
    ((stu.arrival = none ∧ stu.departure = none) ∨
      (stu.arrival ≠ none ∧ stu.departure ≠ none) →
        resolvedDelayMs trip (some stu) = 0) ∧
    (∀ t : Int, stu.departure.bind StopTimeEvent.time = some t → t ≠ 0 →
        effDepartureMs trip (some stu) = 1000 * t) ∧
    (stu.departure.bind StopTimeEvent.time = none →
        effDepartureMs trip (some stu) = trip.departure_time + resolvedDelayMs trip (some stu)) ∧
    (∀ t : Int, stu.arrival.bind StopTimeEvent.time = some t → t ≠ 0 →
        effArrivalMs trip (some stu) = 1000 * t) ∧
    (stu.arrival.bind StopTimeEvent.time = none →
        effArrivalMs trip (some stu) = trip.arrival_time + resolvedDelayMs trip (some stu)) := by
  refine ⟨?_, ?_, ?_, ?_, ?_, ?_, ?_, ?_, ?_⟩
  · intro ev d ha hd hdel hne
    simp [resolvedDelayMs, ha, hd, hdel, hne]
  · intro ev d hd ha hdel hne
    simp [resolvedDelayMs, ha, hd, hdel, hne]
  · intro ev t ha hd hdel ht
    rcases hdel with hdel | hdel <;>
      simp [resolvedDelayMs, inferredDelayMs, ha, hd, hdel, ht]
  · intro ev t hd ha hdel ht
    rcases hdel with hdel | hdel <;>
      simp [resolvedDelayMs, inferredDelayMs, ha, hd, hdel, ht]
  · intro h
    rcases h with ⟨ha, hd⟩ | ⟨ha, hd⟩
    · simp [resolvedDelayMs, ha, hd]
    · rcases Option.ne_none_iff_exists.mp ha with ⟨a, ha2⟩
      rcases Option.ne_none_iff_exists.mp hd with ⟨d, hd2⟩
      simp [resolvedDelayMs, ha2.symm, hd2.symm]
  · intro t ht hne
    simp [effDepartureMs, ht, hne]
  · intro ht
    simp [effDepartureMs, ht]
  · intro t ht hne
    simp [effArrivalMs, ht, hne]
  · intro ht
    simp [effArrivalMs, ht]

theorem resolveTripTimes_delay_resolution_witness :
    resolvedDelayMs delayTrip (some plainDelayStopUpdate) = 1000 * 30 :=
  (resolveTripTimes_delay_resolution delayTrip plainDelayStopUpdate).1
    ⟨some 30, none⟩ 30 rfl rfl rfl (by decide)

theorem tripUpdatesMaxAge_eq_foldl_aux (responses : List RtResponse) :
    ∀ m : Int,
      responses.foldl
        (fun maxAge resp =>
          match resp.cacheControl with
          | some directives =>
            match directives.maxAge with
            | some a => max maxAge a
            | none => if directives.noCache then max maxAge 0 else maxAge
          | none => maxAge) m =
      (responses.filterMap freshnessHint).foldl max m := by
  induction responses with
  | nil => intro m; rfl
  | cons resp rest ih =>
    intro m
    rcases resp with ⟨cc, ents⟩
    cases cc with
    | none => simpa [freshnessHint] using ih m
    | some d =>
      rcases d with ⟨ma, nc⟩
      cases ma with
      | some a => simpa [freshnessHint] using ih (max m a)
      | none =>
        cases nc with
        | true => simpa [freshnessHint] using ih (max m 0)
        | false => simpa [freshnessHint] using ih m

theorem tripUpdatesMaxAge_eq_foldl (responses : List RtResponse) :
    tripUpdatesMaxAge responses = (responses.filterMap freshnessHint).foldl max (-1) :=
  tripUpdatesMaxAge_eq_foldl_aux responses (-1)

theorem le_foldl_max (l : List Int) : ∀ a : Int, a ≤ l.foldl max a := by
  induction l with
  | nil => intro a; exact le_refl a
  | cons x xs ih => intro a; exact le_trans (le_max_left a x) (ih (max a x))

theorem mem_le_foldl_max (l : List Int) : ∀ (a x : Int), x ∈ l → x ≤ l.foldl max a := by
  induction l with
  | nil => intro a x hx; simp at hx
  | cons y ys ih =>
    intro a x hx
    rcases List.mem_cons.mp hx with rfl | hx2
    · exact le_trans (le_max_right a x) (le_foldl_max ys (max a x))
    · exact ih (max a y) x hx2

theorem foldl_max_le (l : List Int) :
    ∀ (a m : Int), a ≤ m → (∀ x ∈ l, x ≤ m) → l.foldl max a ≤ m := by
  induction l with
  | nil => intro a m ha _; exact ha
  | cons y ys ih =>
    intro a m ha hb
    exact ih (max a y) m (max_le ha (hb y (List.mem_cons_self y ys)))
      (fun x hx => hb x (List.mem_cons_of_mem y hx))

/-- C5: the claim requires the most RESTRICTIVE freshness hint to win and a
no-cache hint to force TTL 0; the code accumulates hints with `Math.max`, so
the LARGEST max-age wins: given one response with max-age 10 and one with
no-cache, the ttl is 10000 ms rather than 0, and given max-ages 10 and 300 it
is 300000 ms rather than 10000. -/
theorem tripUpdatesTtl_most_restrictive_cex :
    tripUpdatesTtl [⟨some ⟨some 10, false⟩, []⟩, ⟨some ⟨none, true⟩, []⟩] = 10000 ∧
      tripUpdatesTtl [⟨some ⟨some 10, false⟩, []⟩, ⟨some ⟨some 300, false⟩, []⟩] = 300000 := by
  decide

/-- C5 (amended): the cache TTL equals the most PERMISSIVE freshness hint
across all responses: within one response an explicit numeric max-age wins
over no-cache, a no-cache-only response contributes a hint of 0 (so it forces
TTL 0 only when no response contributes a larger max-age), the largest
contributed hint (in seconds, × 1000 for ms) is taken, and if no response
carries any hint the TTL falls back to the fixed 15000 ms. -/
theorem tripUpdatesTtl_largest_hint (responses : List RtResponse) :
    (responses.filterMap freshnessHint = [] → tripUpdatesTtl responses = 15000) ∧
    (∀ m : Int, m ∈ responses.filterMap freshnessHint →
      (∀ a ∈ responses.filterMap freshnessHint, a ≤ m) → 0 ≤ m →
        tripUpdatesTtl responses = m * 1000) := by
  constructor
  · intro hnil
    unfold tripUpdatesTtl
    rw [tripUpdatesMaxAge_eq_foldl, hnil]
    norm_num
  · intro m hmem hub hm
    have heq : tripUpdatesMaxAge responses = m := by
      rw [tripUpdatesMaxAge_eq_foldl]
      exact le_antisymm
        (foldl_max_le _ (-1) m (le_trans (by norm_num) hm) hub)
        (mem_le_foldl_max _ (-1) m hmem)
    unfold tripUpdatesTtl
    rw [heq, if_pos hm]

theorem tripUpdatesTtl_largest_hint_witness :
    tripUpdatesTtl [⟨some ⟨some 10, false⟩, []⟩, ⟨some ⟨none, true⟩, []⟩] = 10 * 1000 :=
  (tripUpdatesTtl_largest_hint [⟨some ⟨some 10, false⟩, []⟩, ⟨some ⟨none, true⟩, []⟩]).2
    10 (by decide) (by decide) (by decide)

/-- C8: fetching real-time trip updates never fails the overall request: with
no real-time source configured getTripUpdates yields the empty lookup, and
when the per-day fetch throws, getUpcomingTripsForRoutesAtStops computes
exactly what it computes with an empty update lookup (the catch block
degrades the pass to static-only data instead of propagating). -/
theorem tripUpdates_failure_degrades :
    (∀ (responses : List RtResponse) (tripIds : List String) (k : String),
      getTripUpdates none responses tripIds k = none) ∧
    (∀ (schedule : String → String → Int → List TripStopRaw) (e : String) (now : Int)
        (routes : List RouteAtStop),
      getUpcomingTripsForRoutesAtStops schedule (fun _ => Except.error e) now routes =
        getUpcomingTripsForRoutesAtStops schedule (fun _ => Except.ok fun _ => none) now
          routes) :=
  ⟨fun _ _ _ => rfl, fun _ _ _ _ => rfl⟩



theorem parseRouteStopPairs_found_not_ok (raw : String) (p : RawRouteStopPair)
    (hfind : (buildRouteStopPairs raw).find?
      (fun p => falsyStr p.routeId || falsyStr p.stopId || p.offset.isNone) = some p) :
    (parseRouteStopPairs raw).isOk = false := by
  unfold parseRouteStopPairs
  rw [hfind]
  show (if (falsyStr p.routeId || falsyStr p.stopId) = true then
      (Except.error "Invalid route-stop pair; must be in the format routeId,stopId[,offset]" :
        Except String (List RawRouteStopPair))
    else Except.error "Invalid offset; must be a number").isOk = false
  split <;> rfl

/-- C9: the claim asserts every tuple with a non-numeric offset component is
rejected; `parseInt("12abc")` is 12 (not NaN), so the tuple `r,s,12abc` is
accepted with offset 12 instead of being rejected. -/
theorem parseRouteStopPairs_numeric_prefix_cex :
    parseRouteStopPairs "r,s,12abc" = Except.ok [⟨some "r", some "s", some 12⟩] := by decide

/-- C9 (amended): parsing rejects (raises a client-side request error for)
exactly those strings containing a tuple missing routeId or stopId or whose
offset has no parseable numeric prefix (parseInt yields NaN); a tuple whose
offset carries a numeric prefix is accepted with that prefix as its offset;
every accepted string yields the built (routeId, stopId, offset) triples, and
a tuple with fewer than three components defaults to offset 0. -/
theorem parseRouteStopPairs_validation (raw : String) :
    ((parseRouteStopPairs raw).isOk = true ↔
      ∀ p ∈ buildRouteStopPairs raw,
        falsyStr p.routeId = false ∧ falsyStr p.stopId = false ∧ p.offset ≠ none) ∧
    (∀ pairs, parseRouteStopPairs raw = Except.ok pairs → pairs = buildRouteStopPairs raw) ∧
    (∀ pairStr ∈ jsSplitChar ';' raw, (jsSplitChar ',' pairStr).length ≤ 2 →
      (buildRouteStopPair pairStr).offset = some 0) := by
  refine ⟨?_, ?_, ?_⟩
  · constructor
    · intro hok
      cases hfind : (buildRouteStopPairs raw).find?
          (fun p => falsyStr p.routeId || falsyStr p.stopId || p.offset.isNone) with
      | some p =>
        rw [parseRouteStopPairs_found_not_ok raw p hfind] at hok
        cases hok
      | none =>
        intro p hp
        have hnp := List.find?_eq_none.mp hfind p hp
        simp only [Bool.or_eq_true, not_or, Bool.not_eq_true,
          Option.isNone_iff_eq_none] at hnp
        tauto
    · intro hall
      have hfind : (buildRouteStopPairs raw).find?
          (fun p => falsyStr p.routeId || falsyStr p.stopId || p.offset.isNone) = none := by
        rw [List.find?_eq_none]
        intro p hp
        rcases hall p hp with ⟨h1, h2, h3⟩
        simp [h1, h2, Option.isNone_iff_eq_none, h3]
      unfold parseRouteStopPairs
      rw [hfind]
      rfl
  · intro pairs hok
    cases hfind : (buildRouteStopPairs raw).find?
        (fun p => falsyStr p.routeId || falsyStr p.stopId || p.offset.isNone) with
    | some p =>
      have hbad := parseRouteStopPairs_found_not_ok raw p hfind
      rw [hok] at hbad
      cases hbad
    | none =>
      unfold parseRouteStopPairs at hok
      rw [hfind] at hok
      have hok2 : (Except.ok (buildRouteStopPairs raw) : Except String (List RawRouteStopPair)) =
          Except.ok pairs := hok
      injection hok2 with h
      exact h.symm
  · intro pairStr _ hlen
    unfold buildRouteStopPair
    have h2 : ((jsSplitChar ',' pairStr).map jsTrim)[2]? = none := by
      apply List.getElem?_eq_none
      simpa using hlen
    show jsParseInt ((((jsSplitChar ',' pairStr).map jsTrim)[2]?).getD "0") = some 0
    rw [h2]
    rfl

theorem parseRouteStopPairs_validation_witness :
    (parseRouteStopPairs "a,b;c,d,7").isOk = true :=
  (parseRouteStopPairs_validation "a,b;c,d,7").1.mpr (by decide)

/-- C10: when the aggregation pass inside a subscription throws, the pass is
not atomic: the error is signalled to the consumers, the body then continues,
the remembered snapshot is overwritten with the undefined value, and a
further emission is attempted — so a previously remembered snapshot is never
preserved across a failed pass. -/
theorem subscription_error_pass_not_atomic (enc : ScheduleUpdate → String) (e : String)
    (s : ScheduleUpdate) :
    updateSchedule enc (CurrentSchedule.snap s) (Except.error e) =
      (CurrentSchedule.undef,
        [SubscriptionEvent.errorSig e, SubscriptionEvent.nextSig CurrentSchedule.undef]) ∧
      CurrentSchedule.undef ≠ CurrentSchedule.snap s := by
  constructor
  · simp [updateSchedule, stringifyCurrent]
  · intro h
    cases h

theorem subscription_error_pass_not_atomic_witness :
    updateSchedule (fun _ => "") (CurrentSchedule.snap ⟨[]⟩) (Except.error "boom") =
      (CurrentSchedule.undef,
        [SubscriptionEvent.errorSig "boom", SubscriptionEvent.nextSig CurrentSchedule.undef]) :=
  (subscription_error_pass_not_atomic (fun _ => "") "boom" ⟨[]⟩).1

/-- C2: the claim asserts the 3-day scan never yields two entries with
identical (tripId, arrivalTime, departureTime) compared as time values; but
the duplicate test compares the `Date` objects with `===` (reference
equality) while resolveTripTimes always returns freshly allocated `Date`s, so
the test never fires: with the same route-stop query listed twice, the very
same visit is emitted twice with identical trip id and time values.  The
code's own comment ("Don't add duplicate trip") documents the intended
deduplication. -/
theorem getUpcomingTrips_duplicate_cex :
    (getUpcomingTripsForRoutesAtStops dupSchedule (fun _ => Except.ok fun _ => none) 0
        dupRoutes).map
      (fun ts => (ts.tripId, ts.arrivalTime.time, ts.departureTime.time)) =
    [("t1", 1000000, 2000000), ("t1", 1000000, 2000000)] := by decide

theorem resolveTripTimes_arrival_alloc_ge (ctr : Nat) (trip : TripStopRaw)
    (stu? : Option IStopTimeUpdate) :
    ctr ≤ (resolveTripTimes ctr trip stu?).2.arrivalTime.alloc := by
  unfold resolveTripTimes
  split
  · exact Nat.le_refl ctr
  · exact Nat.le_add_right ctr 3

/-- C4: for an occurrence that survives the past-departure filter and whose
matched update carries CANCELED status (or whose matched stop update carries
SKIPPED status), the occurrence is dropped exactly when it is feasibly active
(min(|arrival − now|, |departure − now|) < 4 h) or the update's explicit
start date equals the occurrence's service date; in particular a date-less
cancellation never removes an occurrence outside the 4-hour window.  The
accumulator hypothesis is the allocation-freshness invariant maintained by
the scan (every stored Date was allocated before the current counter). -/
theorem cancellation_gate (now : Int) (updMap : String → Option ITripUpdate)
    (acc : List TripStop) (ctr : Nat) (trip : TripStopRaw)
    (hinv : ∀ ts ∈ acc, ts.arrivalTime.alloc < ctr)
    (hfut : ¬ (resolveTripTimes ctr trip
      (matchStopTimeUpdate (matchTripUpdate updMap trip) trip)).2.departureTime.time < now)
    (hcs : isCanceled (matchTripUpdate updMap trip) ∨
      isSkippedStop (matchStopTimeUpdate (matchTripUpdate updMap trip) trip)) :
    ((processTrip now updMap (acc, ctr) trip).1 = acc ↔
      (tripIsFeasiblyActive now (resolveTripTimes ctr trip
          (matchStopTimeUpdate (matchTripUpdate updMap trip) trip)).2 ∨
        startDateMatches (matchTripUpdate updMap trip) trip)) := by
  unfold processTrip
  rw [if_neg hfut]
  by_cases hg : tripIsFeasiblyActive now (resolveTripTimes ctr trip
      (matchStopTimeUpdate (matchTripUpdate updMap trip) trip)).2 ∨
      startDateMatches (matchTripUpdate updMap trip) trip
  · rw [if_pos ⟨hg, hcs⟩]
    exact ⟨fun _ => hg, fun _ => rfl⟩
  · rw [if_neg (fun hand => hg hand.1)]
    have hdup : ¬ isDuplicateTripStop acc trip
        (resolveTripTimes ctr trip
          (matchStopTimeUpdate (matchTripUpdate updMap trip) trip)).2 := by
      rintro ⟨ts, hts, _, harr, _⟩
      have h1 := hinv ts hts
      have h2 := resolveTripTimes_arrival_alloc_ge ctr trip
        (matchStopTimeUpdate (matchTripUpdate updMap trip) trip)
      omega
    rw [if_neg hdup]
    refine iff_of_false (fun h => ?_) hg
    have hlen := congrArg List.length h
    simp at hlen

theorem cancellation_gate_witness :
    (processTrip 0 datedCancelMap ([], 0) farTrip).1 = [] :=
  (cancellation_gate 0 datedCancelMap [] 0 farTrip (by simp) (by decide)
      (Or.inl (by decide))).mpr (Or.inr (by decide))

theorem keepFirstByKey_sublist (seen : List String) (l : List ScheduleTrip) :
    (keepFirstByKey seen l).Sublist l := by
  induction l generalizing seen with
  | nil => simp [keepFirstByKey]
  | cons x xs ih =>
    simp only [keepFirstByKey]
    by_cases h : pairKey x ∈ seen
    · rw [if_pos h]
      exact (ih seen).cons x
    · rw [if_neg h]
      exact (ih (pairKey x :: seen)).cons₂ x

theorem mem_keepFirstByKey_not_seen (l : List ScheduleTrip) :
    ∀ (seen : List String) (t : ScheduleTrip), t ∈ keepFirstByKey seen l → pairKey t ∉ seen := by
  induction l with
  | nil => intro seen t ht; simp [keepFirstByKey] at ht
  | cons x xs ih =>
    intro seen t ht
    simp only [keepFirstByKey] at ht
    by_cases h : pairKey x ∈ seen
    · rw [if_pos h] at ht
      exact ih seen t ht
    · rw [if_neg h] at ht
      rcases List.mem_cons.mp ht with rfl | ht2
      · exact h
      · intro hmem
        exact ih (pairKey x :: seen) t ht2 (List.mem_cons_of_mem _ hmem)

theorem keepFirstByKey_pairwise (l : List ScheduleTrip) :
    ∀ seen : List String,
      List.Pairwise (fun a b => pairKey a ≠ pairKey b) (keepFirstByKey seen l) := by
  induction l with
  | nil => intro seen; simp [keepFirstByKey]
  | cons x xs ih =>
    intro seen
    simp only [keepFirstByKey]
    by_cases h : pairKey x ∈ seen
    · rw [if_pos h]
      exact ih seen
    · rw [if_neg h]
      refine List.Pairwise.cons ?_ (ih (pairKey x :: seen))
      intro y hy heq
      have hmem : pairKey y ∈ pairKey x :: seen := by
        rw [← heq]
        exact List.mem_cons_self _ _
      exact mem_keepFirstByKey_not_seen xs (pairKey x :: seen) y hy hmem

theorem keepFirstByKey_earliest (sbd : Bool) (l : List ScheduleTrip) :
    ∀ seen : List String, List.Sorted (keyLe sbd) l →
      ∀ t ∈ keepFirstByKey seen l, ∀ u ∈ l, pairKey u = pairKey t →
        sortKeyVal sbd t ≤ sortKeyVal sbd u := by
  induction l with
  | nil => intro seen _ t ht; simp [keepFirstByKey] at ht
  | cons x xs ih =>
    intro seen hs t ht u hu hk
    simp only [keepFirstByKey] at ht
    rcases List.mem_cons.mp hu with rfl | hu2
    · by_cases h : pairKey u ∈ seen
      · rw [if_pos h] at ht
        have hmem : pairKey t ∈ seen := by
          rw [← hk]
          exact h
        exact absurd hmem (mem_keepFirstByKey_not_seen xs seen t ht)
      · rw [if_neg h] at ht
        rcases List.mem_cons.mp ht with rfl | ht2
        · exact le_refl _
        · have hmem : pairKey t ∈ pairKey u :: seen := by
            rw [← hk]
            exact List.mem_cons_self _ _
          exact absurd hmem (mem_keepFirstByKey_not_seen xs (pairKey u :: seen) t ht2)
    · have hs2 : List.Sorted (keyLe sbd) xs := hs.of_cons
      by_cases h : pairKey x ∈ seen
      · rw [if_pos h] at ht
        exact ih seen hs2 t ht u hu2 hk
      · rw [if_neg h] at ht
        rcases List.mem_cons.mp ht with rfl | ht2
        · exact (List.sorted_cons.mp hs).1 u hu2
        · exact ih (pairKey x :: seen) hs2 t ht2 u hu2 hk

theorem aggregateTrips_sublist_sorted (sbd : Bool) (lm : Option ListMode) (limit : Nat)
    (now : Int) (mapped : List ScheduleTrip) :
    (aggregateTrips sbd lm limit now mapped).Sublist
      (sortTrips sbd (futureTrips sbd now mapped)) := by
  unfold aggregateTrips
  refine List.Sublist.trans (List.take_sublist _ _) ?_
  split
  · exact keepFirstByKey_sublist [] _
  · exact List.Sublist.refl _

theorem aggregateTrips_sorted (sbd : Bool) (lm : Option ListMode) (limit : Nat)
    (now : Int) (mapped : List ScheduleTrip) :
    List.Sorted (keyLe sbd) (aggregateTrips sbd lm limit now mapped) :=
  List.Pairwise.sublist (aggregateTrips_sublist_sorted sbd lm limit now mapped)
    (List.sorted_insertionSort _ _)

theorem aggregateTrips_future (sbd : Bool) (lm : Option ListMode) (limit : Nat)
    (now : Int) (mapped : List ScheduleTrip) :
    ∀ t ∈ aggregateTrips sbd lm limit now mapped, now < sortKeyVal sbd t := by
  intro t ht
  have h1 : t ∈ sortTrips sbd (futureTrips sbd now mapped) :=
    (aggregateTrips_sublist_sorted sbd lm limit now mapped).subset ht
  have h2 : t ∈ futureTrips sbd now mapped :=
    (List.perm_insertionSort (keyLe sbd) (futureTrips sbd now mapped)).subset h1
  exact of_decide_eq_true (List.mem_filter.mp h2).2

theorem aggregateTrips_length (sbd : Bool) (lm : Option ListMode) (limit : Nat)
    (now : Int) (mapped : List ScheduleTrip) :
    (aggregateTrips sbd lm limit now mapped).length ≤ limit := by
  unfold aggregateTrips
  exact List.length_take_le _ _

theorem aggregateTrips_nextPerRoute_eq (sbd : Bool) (limit : Nat) (now : Int)
    (mapped : List ScheduleTrip) :
    aggregateTrips sbd (some ListMode.nextPerRoute) limit now mapped =
      (keepFirstByKey [] (sortTrips sbd (futureTrips sbd now mapped))).take limit := by
  unfold aggregateTrips
  rw [if_pos rfl]
  rfl

theorem aggregateTrips_nextPerRoute_pairwise (sbd : Bool) (limit : Nat) (now : Int)
    (mapped : List ScheduleTrip) :
    List.Pairwise (fun a b => ¬ (a.routeId = b.routeId ∧ a.stopId = b.stopId))
      (aggregateTrips sbd (some ListMode.nextPerRoute) limit now mapped) := by
  rw [aggregateTrips_nextPerRoute_eq]
  refine List.Pairwise.imp ?_
    (List.Pairwise.sublist (List.take_sublist _ _) (keepFirstByKey_pairwise _ []))
  intro a b hne hab
  apply hne
  show a.routeId ++ "-" ++ a.stopId = b.routeId ++ "-" ++ b.stopId
  rw [hab.1, hab.2]

theorem aggregateTrips_nextPerRoute_earliest (sbd : Bool) (limit : Nat) (now : Int)
    (mapped : List ScheduleTrip) :
    ∀ t ∈ aggregateTrips sbd (some ListMode.nextPerRoute) limit now mapped,
      ∀ u ∈ mapped, pairKey u = pairKey t → now < sortKeyVal sbd u →
        sortKeyVal sbd t ≤ sortKeyVal sbd u := by
  intro t ht u hu hk hufut
  rw [aggregateTrips_nextPerRoute_eq] at ht
  have ht2 : t ∈ keepFirstByKey [] (sortTrips sbd (futureTrips sbd now mapped)) :=
    (List.take_sublist _ _).subset ht
  have hu2 : u ∈ futureTrips sbd now mapped :=
    List.mem_filter.mpr ⟨hu, decide_eq_true hufut⟩
  have hu3 : u ∈ sortTrips sbd (futureTrips sbd now mapped) :=
    (List.perm_insertionSort (keyLe sbd) (futureTrips sbd now mapped)).symm.subset hu2
  exact keepFirstByKey_earliest sbd _ [] (List.sorted_insertionSort _ _) t ht2 u hu3 hk

/-- C7: every emitted trip list is sorted ascending by the sort key
(departureTime when sortByDeparture, else arrivalTime), contains only trips
whose sort key is strictly in the future, has length at most limit, and under
listMode = nextPerRoute contains at most one trip per distinct
(routeId, stopId) pair, each being the earliest future trip of its pair by
the sort key. -/
theorem schedule_aggregation_properties (upcomingTrips : List TripStop)
    (routes : List RouteAtStopWithOffset) (limit : Nat) (sortByDeparture : Bool)
    (listMode : Option ListMode) (now : Int) (result : ScheduleUpdate)
    (h : getUpcomingTrips upcomingTrips routes limit sortByDeparture listMode now =
      some result) :
    List.Sorted (keyLe sortByDeparture) result.trips ∧
    (∀ t ∈ result.trips, now < sortKeyVal sortByDeparture t) ∧
    result.trips.length ≤ limit ∧
    (listMode = some ListMode.nextPerRoute →
      List.Pairwise (fun a b => ¬ (a.routeId = b.routeId ∧ a.stopId = b.stopId))
        result.trips ∧
      ∀ t ∈ result.trips, ∀ mapped, applyOffsets routes upcomingTrips = some mapped →
        ∀ u ∈ mapped, u.routeId = t.routeId → u.stopId = t.stopId →
          now < sortKeyVal sortByDeparture u →
          sortKeyVal sortByDeparture t ≤ sortKeyVal sortByDeparture u) := by
  unfold getUpcomingTrips at h
  obtain ⟨mapped, hmap, hres⟩ := Option.map_eq_some'.mp h
  have htr : result.trips = aggregateTrips sortByDeparture listMode limit now mapped := by
    rw [← hres]
  refine ⟨?_, ?_, ?_, ?_⟩
  · rw [htr]
    exact aggregateTrips_sorted sortByDeparture listMode limit now mapped
  · rw [htr]
    exact aggregateTrips_future sortByDeparture listMode limit now mapped
  · rw [htr]
    exact aggregateTrips_length sortByDeparture listMode limit now mapped
  · intro hlm
    subst hlm
    constructor
    · rw [htr]
      exact aggregateTrips_nextPerRoute_pairwise sortByDeparture limit now mapped
    · intro t ht mapped0 hmap0 u hu hru hsu hufut
      rw [hmap] at hmap0
      injection hmap0 with hm0
      subst hm0
      rw [htr] at ht
      have hk : pairKey u = pairKey t := by
        show u.routeId ++ "-" ++ u.stopId = t.routeId ++ "-" ++ t.stopId
        rw [hru, hsu]
      exact aggregateTrips_nextPerRoute_earliest sortByDeparture limit now mapped t ht
        u hu hk hufut

theorem schedule_aggregation_properties_witness :
    getUpcomingTrips aggTrips aggRoutes 5 false (some ListMode.nextPerRoute) 0 =
      some aggResult ∧ aggResult.trips.length ≤ 5 :=
  ⟨by decide,
    (schedule_aggregation_properties aggTrips aggRoutes 5 false
        (some ListMode.nextPerRoute) 0 aggResult (by decide)).2.2.1⟩
